import Mathlib

/-
Verification of the fishbowl-api client core: the length-prefixed frame codec
and receive loop of `fishbowl/api.py`, the status checker, the close/logout
key handling, and the schema-driven object mapper of `fishbowl/objects.py`.

Bytes are modelled as `Nat` (values < 256 where it matters), byte strings as
`List Nat`.  A socket is modelled as the byte stream it will deliver plus a
schedule of chunk sizes describing how the underlying `recv` calls partition
that stream (a partial read delivers `min requested scheduled` bytes; an
exhausted stream models a read that blocks until the timeout fires).
-/

namespace Fishbowl

/-- struct.pack(">L", n): 4-byte unsigned big-endian encoding of `n`. -/
def packBE4 (n : Nat) : List Nat :=
  [n / 2 ^ 24 % 256, n / 2 ^ 16 % 256, n / 2 ^ 8 % 256, n % 256]

/-- struct.unpack(">L", b)[0] for a 4-byte string `b`. -/
def unpackBE4 (b : List Nat) : Nat :=
  match b with
  | [a, b, c, d] => ((a * 256 + b) * 256 + c) * 256 + d
  | _ => 0

/-- Fishbowl.pack_message: calculate msg length and prepend it as a 4-byte
unsigned big-endian long (source: api.py lines 205-212). -/
def pack_message (msg : List Nat) : List Nat :=
  packBE4 msg.length ++ msg

/-- A socket stream: the bytes it will deliver, and the sizes of the successive
chunks in which `recv` serves them.  An empty schedule means every remaining
`recv` is served in full. -/
structure Sock where
  data : List Nat
  sched : List Nat

/-- The header loop of Fishbowl.send_message (api.py lines 299-301):
`while len(packed_length) < 4: packed_length += self.stream.recv(4 - len(...))`.
Each iteration asks for the missing bytes and may receive only part of them.
`none` models the read blocking past the timeout (socket.timeout). -/
def recvHeader (acc : List Nat) (sock : Sock) : Option (List Nat × Sock) :=
  if acc.length ≥ 4 then some (acc, sock)
  else
    match sock with
    | ⟨data, []⟩ =>
      if acc.length + (data.take (4 - acc.length)).length = 4 then
        some (acc ++ data.take (4 - acc.length), ⟨data.drop (4 - acc.length), []⟩)
      else none
    | ⟨data, a :: rest⟩ =>
      if (data.take (min (4 - acc.length) a)).length = 0 then none
      else recvHeader (acc ++ data.take (min (4 - acc.length) a))
        ⟨data.drop (min (4 - acc.length) a), rest⟩
termination_by sock.sched.length

/-- One `byte = ord(self.stream.recv(1))` read (api.py line 305). -/
def recv1 (sock : Sock) : Option (Nat × Sock) :=
  match sock with
  | ⟨[], _⟩ => none
  | ⟨b :: rest, []⟩ => some (b, ⟨rest, []⟩)
  | ⟨b :: rest, a :: restS⟩ =>
    if a = 0 then none else some (b, ⟨rest, restS⟩)

/-- The payload loop of Fishbowl.send_message (api.py lines 304-307): read
exactly `n` further bytes, one `recv(1)` at a time. -/
def readPayload : Nat → Sock → Option (List Nat × Sock)
  | 0, sock => some ([], sock)
  | n + 1, sock =>
    match recv1 sock with
    | none => none
    | some (b, sock1) =>
      match readPayload n sock1 with
      | none => none
      | some (bs, sock2) => some (b :: bs, sock2)

/-- The receive sequence of Fishbowl.send_message (api.py lines 295-315):
read a 4-byte big-endian length, then exactly that many payload bytes.  A
timeout before the length is complete and a timeout after it produce the two
distinct diagnostic messages of the source. -/
def recvMessage (sock : Sock) : Except String (List Nat) :=
  match recvHeader [] sock with
  | none => Except.error "Connection timeout"
  | some (hdr, sock1) =>
    match readPayload (unpackBE4 hdr) sock1 with
    | none => Except.error "Connection timeout (after length received)"
    | some (payload, _) => Except.ok payload

/-- The receive phase of send_message together with its `except socket.timeout`
handler: on timeout the connection is closed (`self.close(skip_errors=True)`,
suppressing secondary errors) before the FishbowlTimeoutError is raised.  The
Bool component is the connected flag after the call (the call starts
connected). -/
def send_message_receive (sock : Sock) : Bool × Except String (List Nat) :=
  match recvMessage sock with
  | Except.ok p => (true, Except.ok p)
  | Except.error e => (false, Except.error e)

/-! Lemmas for the frame round trip. -/

theorem unpackBE4_packBE4 (n : Nat) (h : n < 2 ^ 32) : unpackBE4 (packBE4 n) = n := by
  simp only [unpackBE4, packBE4]
  omega

theorem packBE4_length (n : Nat) : (packBE4 n).length = 4 := rfl

theorem take_split {α : Type} (d : List α) (k m : Nat) (h : k ≤ m) :
    d.take m = d.take k ++ (d.drop k).take (m - k) := by
  conv_lhs => rw [show m = k + (m - k) by omega, List.take_add]

/-- If at least the missing header bytes are available and every scheduled
chunk is nonempty, the header loop returns the first 4 bytes of the stream and
leaves the rest, with a (still all-positive) suffix of the schedule. -/
theorem recvHeader_ok : ∀ (sched : List Nat) (acc d : List Nat),
    (∀ a ∈ sched, 0 < a) → acc.length ≤ 4 → 4 - acc.length ≤ d.length →
    ∃ sched1, recvHeader acc ⟨d, sched⟩ =
        some (acc ++ d.take (4 - acc.length), ⟨d.drop (4 - acc.length), sched1⟩) ∧
      ∀ a ∈ sched1, 0 < a := by
  intro sched
  induction sched with
  | nil =>
    intro acc d _ hle hd
    refine ⟨[], ?_, by simp⟩
    rw [recvHeader]
    by_cases hfull : acc.length ≥ 4
    · have h0 : 4 - acc.length = 0 := by omega
      simp [hfull, h0]
    · have hlen : (d.take (4 - acc.length)).length = 4 - acc.length := by
        rw [List.length_take]; omega
      simp only [hfull, if_false, hlen]
      have hcomplete : acc.length + (4 - acc.length) = 4 := by omega
      simp [hcomplete]
  | cons a rest ih =>
    intro acc d hpos hle hd
    rw [recvHeader]
    by_cases hfull : acc.length ≥ 4
    · have h0 : 4 - acc.length = 0 := by omega
      exact ⟨a :: rest, by simp [hfull, h0], hpos⟩
    · have ha : 0 < a := hpos a (by simp)
      have hmin : 0 < min (4 - acc.length) a := by omega
      have hdlen : 0 < d.length := by omega
      have htake : (d.take (min (4 - acc.length) a)).length = min (4 - acc.length) a := by
        rw [List.length_take]; omega
      have hne : ¬ (d.take (min (4 - acc.length) a)).length = 0 := by omega
      simp only [hfull, if_false, hne, ite_false]
      have hkle : min (4 - acc.length) a ≤ 4 - acc.length := min_le_left _ _
      have hrec := ih (acc ++ d.take (min (4 - acc.length) a))
        (d.drop (min (4 - acc.length) a))
        (fun x hx => hpos x (by simp [hx]))
        (by rw [List.length_append, htake]; omega)
        (by rw [List.length_drop, List.length_append, htake]; omega)
      obtain ⟨sched1, heq, hpos1⟩ := hrec
      refine ⟨sched1, ?_, hpos1⟩
      rw [heq]
      have hacc : (acc ++ d.take (min (4 - acc.length) a)).length =
          acc.length + min (4 - acc.length) a := by
        rw [List.length_append, htake]
      rw [hacc]
      have hj : 4 - (acc.length + min (4 - acc.length) a) =
          4 - acc.length - min (4 - acc.length) a := by omega
      rw [hj]
      have hdrop2 : (d.drop (min (4 - acc.length) a)).drop
          (4 - acc.length - min (4 - acc.length) a) =
          d.drop (4 - acc.length) := by
        rw [List.drop_drop]
        congr 1
        omega
      rw [List.append_assoc,
        ← take_split d (min (4 - acc.length) a) (4 - acc.length) hkle, hdrop2]

/-- With an all-positive schedule and enough data, the payload loop reads the
first `n` bytes of the stream. -/
theorem readPayload_ok : ∀ (n : Nat) (d sched : List Nat),
    (∀ a ∈ sched, 0 < a) → n ≤ d.length →
    ∃ sock1, readPayload n ⟨d, sched⟩ = some (d.take n, sock1) := by
  intro n
  induction n with
  | zero => intro d sched _ _; exact ⟨⟨d, sched⟩, by simp [readPayload]⟩
  | succ n ih =>
    intro d sched hpos hn
    match d with
    | [] => simp at hn
    | b :: rest =>
      match sched with
      | [] =>
        have hr := ih rest [] (by simp) (by simp at hn; omega)
        obtain ⟨sock1, heq⟩ := hr
        exact ⟨sock1, by simp [readPayload, recv1, heq]⟩
      | a :: restS =>
        have ha : ¬ a = 0 := by
          have := hpos a (by simp); omega
        have hr := ih rest restS (fun x hx => hpos x (by simp [hx])) (by simp at hn; omega)
        obtain ⟨sock1, heq⟩ := hr
        exact ⟨sock1, by simp [readPayload, recv1, ha, heq]⟩

/-- C1.  Frame round-trip: packing any payload (length below 2^32) with its
4-byte big-endian length prefix and then running the receive sequence —
accumulating the 4 length bytes across any partition of the stream into
partial reads, then reading exactly that many payload bytes — returns the
original payload.  All payload lengths below 2^32 are covered, in particular
0, 1, 65535 and 1000000. -/
theorem frame_roundtrip (payload : List Nat) (sched : List Nat)
    (hlen : payload.length < 2 ^ 32) (hpos : ∀ a ∈ sched, 0 < a) :
    recvMessage ⟨pack_message payload, sched⟩ = Except.ok payload := by
  have hdata : (pack_message payload).length = 4 + payload.length := by
    simp [pack_message, packBE4]; omega
  have hhdr := recvHeader_ok sched [] (pack_message payload) hpos (by simp) (by omega)
  obtain ⟨sched1, heq, hpos1⟩ := hhdr
  rw [recvMessage, heq]
  have htake4 : (pack_message payload).take (4 - ([] : List Nat).length) =
      packBE4 payload.length := by
    show (packBE4 payload.length ++ payload).take (4 - 0) = packBE4 payload.length
    have h4 : 4 - 0 = (packBE4 payload.length).length := by rw [packBE4_length]
    rw [h4, List.take_left]
  have hdrop4 : (pack_message payload).drop (4 - ([] : List Nat).length) = payload := by
    show (packBE4 payload.length ++ payload).drop (4 - 0) = payload
    have h4 : 4 - 0 = (packBE4 payload.length).length := by rw [packBE4_length]
    rw [h4, List.drop_left]
  rw [htake4, hdrop4] at *
  simp only [List.nil_append]
  rw [unpackBE4_packBE4 payload.length hlen]
  have hpay := readPayload_ok payload.length payload sched1 hpos1 (le_refl _)
  obtain ⟨sock1, heq1⟩ := hpay
  rw [heq1]
  simp

/-- C1 witness: a concrete payload delivered with the length header split
1+3 across partial reads round-trips. -/
theorem frame_roundtrip_witness :
    recvMessage ⟨pack_message [10, 20, 30], [1, 3, 2, 1]⟩ = Except.ok [10, 20, 30] :=
  frame_roundtrip [10, 20, 30] [1, 3, 2, 1] (by norm_num) (by decide)

/-- C7.  Timeout handling in the receive cycle: whenever the receive phase of
send_message fails, the connection flag is cleared (the handler closes the
connection, suppressing secondary errors, before raising), the error message
is "Connection timeout" exactly when the timeout hit before the 4 length
bytes were assembled, and "Connection timeout (after length received)"
exactly when the timeout hit after the length but before the payload
completed; the two diagnostic messages are distinct. -/
theorem timeout_closes_and_distinguishes :
    (∀ (sock : Sock) (e : String), (send_message_receive sock).2 = Except.error e →
      (send_message_receive sock).1 = false ∧
      (e = "Connection timeout" ↔ recvHeader [] sock = none) ∧
      (e = "Connection timeout (after length received)" ↔
        ∃ hdr sock1, recvHeader [] sock = some (hdr, sock1) ∧
          readPayload (unpackBE4 hdr) sock1 = none)) ∧
    ("Connection timeout" : String) ≠ "Connection timeout (after length received)" := by
  constructor
  · intro sock e herr
    match hh : recvHeader [] sock with
    | none =>
      have h2 : (send_message_receive sock).2 = Except.error "Connection timeout" := by
        simp [send_message_receive, recvMessage, hh]
      rw [h2] at herr
      have he : e = "Connection timeout" := by
        cases herr; rfl
      subst he
      refine ⟨by simp [send_message_receive, recvMessage, hh], by simp, ?_⟩
      constructor
      · intro habs; exact absurd habs (by decide)
      · rintro ⟨hdr, sock1, habs, -⟩
        cases habs
    | some (hdr, sock1) =>
      match hp : readPayload (unpackBE4 hdr) sock1 with
      | none =>
        have h2 : (send_message_receive sock).2 =
            Except.error "Connection timeout (after length received)" := by
          simp [send_message_receive, recvMessage, hh, hp]
        rw [h2] at herr
        have he : e = "Connection timeout (after length received)" := by
          cases herr; rfl
        subst he
        refine ⟨by simp [send_message_receive, recvMessage, hh, hp], ?_, ?_⟩
        · constructor
          · intro habs; exact absurd habs (by decide)
          · intro habs; cases habs
        · exact ⟨fun _ => ⟨hdr, sock1, rfl, hp⟩, fun _ => rfl⟩
      | some p =>
        have h2 : (send_message_receive sock).2 = Except.ok p.1 := by
          simp [send_message_receive, recvMessage, hh, hp]
        rw [h2] at herr
        cases herr
  · decide

/-- C7 witness: an immediately-exhausted stream times out before any length
byte, closing the connection with the header-phase diagnostic. -/
theorem timeout_witness :
    (send_message_receive ⟨[], []⟩).1 = false :=
  (timeout_closes_and_distinguishes.1 ⟨[], []⟩ "Connection timeout"
    (by simp [send_message_receive, recvMessage, recvHeader])).1

/-! Status checker (api.py lines 731-742).  The `statuscodes` module is not
under src/; `check_status` only uses its `get_status` code-to-text lookup,
which is passed here as an explicit function argument (per the spec it is the
lookup used when the statusMessage attribute is absent). -/

/-- check_status: read the statusCode and statusMessage attributes of a node,
default the message through the code-to-text lookup when absent, and fail
carrying the message when the code does not equal `expected` — unless the
code attribute is entirely absent and `allow_none` is set.  Returns the
resolved message on success. -/
def check_status (get_status : Option String → String)
    (code statusMessage : Option String) (expected : String)
    (allow_none : Bool) : Except String String :=
  let message := match statusMessage with
    | some m => m
    | none => get_status code
  if code ≠ some expected ∧ (code ≠ none ∨ allow_none = false) then
    Except.error message
  else
    Except.ok message

/-- C6.  check_status fails with a domain error carrying the resolved status
message iff the code differs from the expected code and it is not the case
that allow_none is set with the code attribute entirely absent; the message
defaults to the code-to-text lookup when the statusMessage attribute is
absent, and on success the resolved message is returned.  The particular
instances of the spec are included: matching code 1010 returns the message,
mismatching 1000 vs 1010 without allow_none fails with the message, and an
absent code with allow_none does not fail. -/
theorem check_status_spec :
    (∀ (get_status : Option String → String) (code statusMessage : Option String)
        (expected : String) (allow_none : Bool),
      check_status get_status code statusMessage expected allow_none =
        (if code ≠ some expected ∧ ¬ (allow_none = true ∧ code = none) then
          Except.error (match statusMessage with
            | some m => m
            | none => get_status code)
        else
          Except.ok (match statusMessage with
            | some m => m
            | none => get_status code))) ∧
    check_status (fun _ => "looked up") (some "1010") (some "OK") "1010" false =
      Except.ok "OK" ∧
    check_status (fun _ => "looked up") (some "1000") none "1010" false =
      Except.error "looked up" ∧
    check_status (fun _ => "looked up") none (some "whatever") "1010" true =
      Except.ok "whatever" := by
  refine ⟨?_, by simp [check_status], by simp [check_status], by simp [check_status]⟩
  intro get_status code statusMessage expected allow_none
  unfold check_status
  rcases allow_none with _ | _ <;> rcases code with _ | c <;> simp

/-! Close/logout key handling (api.py lines 183-191).  The request builder
`xmlrequests.Login` is not under src/; modelled from the spec, it builds the
login/logout XML document carrying the credentials it is given, so it is
represented by a record of the arguments passed to it. -/

/-- Modelled from the spec: the arguments `close` passes to
`xmlrequests.Login` when building the logout request (module `xmlrequests`
is not under src/); the `logout` argument is the session key the logout
message carries. -/
structure LoginRequest where
  username : String
  password : String
  logout : Option String

/-- The key handling of Fishbowl.close: `has_key = getattr(self, "key",
None); if has_key:` unset the key first (to avoid a retry loop if logout
fails), then build `Login(self.username, "", logout=self.key)` — reading the
key attribute again after it was cleared.  Returns the new key attribute and
the request built, if any. -/
def close_key_step (username : String) (key : Option String) :
    Option String × Option LoginRequest :=
  match key with
  | none => (none, none)
  | some k =>
    if k = "" then (some k, none)
    else
      let key1 : Option String := none
      (key1, some ⟨username, "", key1⟩)

/-- C10.  When a (nonempty) key is held, close clears the key attribute
before constructing the logout request, and the request is built with
`logout=self.key`, which is already None at that point: the logout message
never carries the session key that was held. -/
theorem close_logout_without_key (username k : String) (hk : k ≠ "") :
    (close_key_step username (some k)).1 = none ∧
    ∃ req, (close_key_step username (some k)).2 = some req ∧
      req.logout = none ∧ req.logout ≠ some k := by
  refine ⟨by simp [close_key_step, hk], ⟨username, "", none⟩, by simp [close_key_step, hk],
    rfl, by simp⟩

/-- C10 witness: a held key "abc123" is cleared and the logout request built
with logout=None. -/
theorem close_logout_without_key_witness :
    (close_key_step "admin" (some "abc123")).1 = none :=
  (close_logout_without_key "admin" "abc123" (by decide)).1

/-! The object mapper (objects.py).  Python values flowing through
parse_fields are modelled by `Val`: None, str, int, bool, Decimal and
datetime results (carried as their validated literal text), dicts
(ordered key/value lists with unique keys), lists, and constructed
FishbowlObject instances (class name plus resolved mapping). -/

inductive Val where
  | vnone : Val
  | vstr : String → Val
  | vint : Int → Val
  | vbool : Bool → Val
  | vdec : String → Val
  | vdtime : String → Val
  | vdict : List (String × Val) → Val
  | vlist : List Val → Val
  | vobj : String → List (String × Val) → Val

/-- Python str.strip / the surrounding-whitespace tolerance of int() and
Decimal(), written charwise so that concrete instances evaluate. -/
def pyTrim (cs : List Char) : List Char :=
  ((cs.dropWhile Char.isWhitespace).reverse.dropWhile Char.isWhitespace).reverse

/-- Sign handling shared by the int/Decimal literal grammars. -/
def splitSign : List Char → Bool × List Char
  | '-' :: cs => (true, cs)
  | '+' :: cs => (false, cs)
  | cs => (false, cs)

/-- Split a Decimal literal at its exponent marker. -/
def decSplitExp (cs : List Char) : List Char × Option (List Char) :=
  match cs.span (fun c => c != 'e' && c != 'E') with
  | (m, []) => (m, none)
  | (m, _ :: e) => (m, some e)

/-- Mantissa of a Decimal literal: digits with at most one point and at
least one digit overall. -/
def decMantissaOk (m : List Char) : Bool :=
  match m.span (fun c => c != '.') with
  | (ip, []) => !ip.isEmpty && ip.all Char.isDigit
  | (ip, _ :: fp) =>
    ip.all Char.isDigit && fp.all Char.isDigit && !(fp.contains '.') &&
      (!ip.isEmpty || !fp.isEmpty)

def decExpOk : Option (List Char) → Bool
  | none => true
  | some e => !(splitSign e).2.isEmpty && (splitSign e).2.all Char.isDigit

/-- The finite-number grammar accepted by decimal.Decimal (NaN/Infinity and
underscore separators are not modelled; they do not occur in this domain). -/
def decimalLit (s : String) : Bool :=
  decMantissaOk (decSplitExp (splitSign (pyTrim s.toList)).2).1 &&
    decExpOk (decSplitExp (splitSign (pyTrim s.toList)).2).2

/-- A Decimal is nonzero iff its mantissa contains a nonzero digit. -/
def decNonzero (s : String) : Bool :=
  (decSplitExp (splitSign (pyTrim s.toList)).2).1.any (fun c => '1' ≤ c && c ≤ '9')

/-- Python truthiness of a modelled value (`if not value`, `if value`,
FishbowlObject.__bool__ is bool(self.mapped)). -/
def truthy : Val → Bool
  | .vnone => false
  | .vstr s => !(s == "")
  | .vint n => !(n == 0)
  | .vbool b => b
  | .vdec s => decNonzero s
  | .vdtime _ => true
  | .vdict d => !d.isEmpty
  | .vlist l => !l.isEmpty
  | .vobj _ m => !m.isEmpty

/-- Python str.lower on the ASCII identifiers of this domain, written
charwise so that concrete instances evaluate. -/
def pyLower (s : String) : String := String.mk (s.data.map Char.toLower)

/-- Exact-key dict lookup (`data[key]` / `data.get(key)`; dict keys are
unique, so first match is the match). -/
def lookupKey {β : Type} : List (String × β) → String → Option β
  | [], _ => none
  | (k, v) :: rest, key => if k = key then some v else lookupKey rest key

/-- Python `key in dict`. -/
def hasKey {β : Type} (l : List (String × β)) (key : String) : Bool :=
  (lookupKey l key).isSome

/-- OrderedDict.pop(key, None): remove the (unique) entry with this key. -/
def eraseKey {β : Type} : List (String × β) → String → List (String × β)
  | [], _ => []
  | (k, v) :: rest, key => if k = key then rest else (k, v) :: eraseKey rest key

/-- The case-insensitive key index of parse_fields (objects.py line 104):
`data_map = dict((k.lower(), k) for k in data)` — later keys with the same
lowercase form overwrite earlier ones, so the lookup yields the last
matching source key. -/
def data_map_get (data : List (String × Val)) (lk : String) : Option String :=
  data.foldl (fun acc p => if pyLower p.1 = lk then some p.1 else acc) none

/-- Field lookup in the source (objects.py lines 106-107):
`key = data_map.get(field_name.lower()); value = data.get(key)` — where
`data.get(None)` is None. -/
def resolveValue (data : List (String × Val)) (fname : String) : Option Val :=
  match data_map_get data (pyLower fname) with
  | none => none
  | some k => lookupKey data k

/-- Python int() on a str: optional surrounding whitespace, optional sign,
nonempty digits (underscore separators are not modelled). -/
def digitsToNat (cs : List Char) : Nat :=
  cs.foldl (fun n c => n * 10 + (c.toNat - 48)) 0

def parseIntText (s : String) : Option Int :=
  match splitSign (pyTrim s.toList) with
  | (neg, cs) =>
    if !cs.isEmpty && cs.all Char.isDigit then
      some (if neg then -(digitsToNat cs : Int) else (digitsToNat cs : Int))
    else none

/-- int(Decimal(...)): truncation toward zero. -/
def decToInt (s : String) : Int :=
  match splitSign (pyTrim s.toList) with
  | (neg, cs) =>
    match decSplitExp cs with
    | (m, e) =>
      match m.span (fun c => c != '.') with
      | (ip, fpRaw) =>
        let fp := match fpRaw with | [] => [] | _ :: r => r
        let expv : Int := match e with
          | none => 0
          | some ec =>
            match splitSign ec with
            | (en, ed) => if en then -(digitsToNat ed : Int) else (digitsToNat ed : Int)
        let shift : Int := expv - fp.length
        let m0 : Nat := digitsToNat (ip ++ fp)
        let mag : Nat :=
          if 0 ≤ shift then m0 * 10 ^ shift.toNat else m0 / 10 ^ (-shift).toNat
        if neg then -(mag : Int) else (mag : Int)

/-- The builtin `int` used as a field parser: parses str, passes int
through, converts bool, truncates Decimal; raises (None result) on
everything else. -/
def pyInt : Val → Option Val
  | .vint n => some (.vint n)
  | .vbool b => some (.vint (if b then 1 else 0))
  | .vstr s => (parseIntText s).map Val.vint
  | .vdec s => some (.vint (decToInt s))
  | _ => none

/-- decimal.Decimal used as a field parser: validates a str literal, accepts
int/bool/Decimal; raises on everything else. -/
def pyDecimal : Val → Option Val
  | .vstr s => if decimalLit s then some (.vdec (String.mk (pyTrim s.toList))) else none
  | .vint n => some (.vdec (toString n))
  | .vbool b => some (.vdec (if b then "1" else "0"))
  | .vdec s => some (.vdec s)
  | _ => none

/-- fishbowl_boolean (objects.py lines 24-29): falsy input is False, then
strings "0"/"false"/"f" (case-insensitively) are False and any other string
True; `.lower()` raises on truthy non-strings. -/
def fishbowl_boolean (v : Val) : Option Val :=
  if truthy v then
    match v with
    | .vstr s =>
      some (.vbool (!(pyLower s == "0" || pyLower s == "false" || pyLower s == "f")))
    | _ => none
  else some (.vbool false)

/-- Main part of a strptime format: YYYY-MM-DD, the given separator, then
HH:MM:SS (digit-range checks of strptime are not modelled). -/
def dtMainOk (cs : List Char) (sep : Char) : Bool :=
  match cs with
  | [y1, y2, y3, y4, h1, m1, m2, h2, d1, d2, sp, a1, a2, c1, b1, b2, c2, s1, s2] =>
    [y1, y2, y3, y4, m1, m2, d1, d2, a1, a2, b1, b2, s1, s2].all Char.isDigit &&
      h1 == '-' && h2 == '-' && sp == sep && c1 == ':' && c2 == ':'
  | _ => false

/-- fishbowl_datetime (objects.py lines 12-18): strings containing a T are
parsed with "%Y-%m-%dT%H:%M:%S", others with "%Y-%m-%d %H:%M:%S.%f";
strptime raises on non-strings and nonmatching text. -/
def fishbowl_datetime : Val → Option Val
  | .vstr s =>
    if s.toList.contains 'T' then
      if dtMainOk s.toList 'T' then some (.vdtime s) else none
    else
      match s.toList.span (fun c => c != '.') with
      | (main, _ :: frac) =>
        if dtMainOk main ' ' && !frac.isEmpty && frac.length ≤ 6 &&
            frac.all Char.isDigit then
          some (.vdtime s)
        else none
      | _ => none
  | _ => none

/-! The schema model: a field's parser descriptor is None (passthrough), a
conversion function, a nested schema dict, a list of candidate classes
(polymorphic list), or a class used directly as the parser.  A class is its
name, optional id_field and optional fields declaration (the base class has
no fields attribute). -/

mutual

inductive Parser where
  | pnone : Parser
  | scalar : (Val → Option Val) → Parser
  | nested : List (String × Parser) → Parser
  | polyList : List FBClass → Parser
  | classP : FBClass → Parser

inductive FBClass where
  | mk : String → Option String → Option (List (String × Parser)) → FBClass

end

def FBClass.name : FBClass → String
  | .mk n _ _ => n

def FBClass.id_field : FBClass → Option String
  | .mk _ i _ => i

def FBClass.fields : FBClass → Option (List (String × Parser))
  | .mk _ _ f => f

/-- The class dictionary of the polymorphic-list branch
(`dict((cls.__name__, cls) for cls in parser)` followed by
`classes.get(tag)`): on duplicate names the last candidate wins. -/
def classes_get (classes : List (String × FBClass)) (tag : String) : Option FBClass :=
  classes.foldl (fun acc p => if p.1 = tag then some p.2 else acc) none

/-- get_xml_data (objects.py lines 148-165) applied to a non-dict, non-None
value.  XML elements themselves are outside this model; every other Python
value either raises while being iterated (None result) or is an empty
iterable, for which the loop body never runs and the empty dict is
returned. -/
def get_xml_data_model : Val → Option (List (String × Val))
  | .vstr s => if s == "" then some [] else none
  | .vlist l => if l.isEmpty then some [] else none
  | .vobj _ m => if m.isEmpty then some [] else none
  | _ => none

/-- Python truthiness of the id_field attribute (`if self.id_field`). -/
def idfSet : Option String → Bool
  | some f => !(f == "")
  | none => false

/-- The identifier rename step of parse_fields (objects.py lines 142-145):
when an id_field is declared and not already a key of the output, pop the
"ID" entry and, when its value is truthy, append it under the id_field
name. -/
def rename_id (idf : Option String) (out : List (String × Val)) :
    List (String × Val) :=
  match idf with
  | none => out
  | some f =>
    if f = "" then out
    else if hasKey out f then out
    else
      match lookupKey out "ID" with
      | none => out
      | some v =>
        if truthy v then eraseKey out "ID" ++ [(f, v)] else eraseKey out "ID"

/-! The concrete FishbowlObject subclasses of objects.py, transcribed with
their declared field parsers. -/

def CustomListItem : FBClass :=
  .mk "CustomListItem" none (some
    [("ID", .scalar pyInt), ("Name", .pnone), ("Description", .pnone)])

def CustomList : FBClass :=
  .mk "CustomList" none (some
    [("ID", .scalar pyInt), ("Name", .pnone), ("Description", .pnone),
     ("CustomListItems", .polyList [CustomListItem])])

def CustomField : FBClass :=
  .mk "CustomField" none (some
    [("ID", .scalar pyInt), ("Type", .pnone), ("Name", .pnone),
     ("Description", .pnone), ("SortOrder", .scalar pyInt), ("Info", .pnone),
     ("RequiredFlag", .scalar fishbowl_boolean),
     ("ActiveFlag", .scalar fishbowl_boolean), ("CustomList", .classP CustomList)])

def State : FBClass :=
  .mk "State" none (some
    [("ID", .scalar pyInt), ("Code", .pnone), ("Name", .pnone),
     ("CountryID", .scalar pyInt)])

def Country : FBClass :=
  .mk "Country" none (some
    [("ID", .scalar pyInt), ("Name", .pnone), ("Code", .pnone)])

def Address : FBClass :=
  .mk "Address" none (some
    [("ID", .scalar pyInt),
     ("Temp-Account", .nested [("ID", .scalar pyInt), ("Type", .scalar pyInt)]),
     ("Name", .pnone), ("Attn", .pnone), ("Street", .pnone), ("City", .pnone),
     ("Zip", .pnone), ("LocationGroupID", .scalar pyInt),
     ("Default", .scalar fishbowl_boolean),
     ("Residential", .scalar fishbowl_boolean), ("Type", .pnone),
     ("State", .classP State), ("Country", .classP Country),
     ("AddressInformationList", .nested
       [("AddressInformation", .nested
         [("ID", .scalar pyInt), ("Name", .pnone), ("Data", .pnone),
          ("Default", .scalar fishbowl_boolean), ("Type", .pnone)])])])

def Customer : FBClass :=
  .mk "Customer" (some "CustomerID") (some
    [("CustomerID", .scalar pyInt), ("AccountID", .scalar pyInt),
     ("Status", .pnone), ("DefPaymentTerms", .pnone), ("DefShipTerms", .pnone),
     ("TaxRate", .pnone), ("Name", .pnone), ("Number", .pnone),
     ("DateCreated", .scalar fishbowl_datetime),
     ("DateLastModified", .scalar fishbowl_datetime),
     ("LastChangedUser", .pnone), ("CreditLimit", .scalar pyDecimal),
     ("TaxExempt", .scalar fishbowl_boolean), ("TaxExemptNumber", .pnone),
     ("Note", .pnone), ("ActiveFlag", .scalar fishbowl_boolean),
     ("AccountingID", .pnone), ("CurrencyName", .pnone),
     ("CurrencyRate", .scalar pyInt), ("DefaultSalesman", .pnone),
     ("DefaultCarrier", .pnone), ("DefaultShipService", .pnone),
     ("JobDepth", .scalar pyInt), ("QuickBooksClassName", .pnone),
     ("ParentID", .scalar pyInt), ("PipelineAccount", .scalar pyInt),
     ("URL", .pnone), ("Addresses", .polyList [Address]),
     ("CustomFields", .polyList [CustomField])])

def UOM : FBClass :=
  .mk "UOM" none (some
    [("UOMID", .scalar pyInt), ("Name", .pnone), ("Code", .pnone),
     ("Integral", .scalar fishbowl_boolean), ("Active", .scalar fishbowl_boolean),
     ("Type", .pnone)])

def LocationGroup : FBClass :=
  .mk "LocationGroup" none (some
    [("ID", .scalar pyInt), ("Name", .pnone),
     ("ActiveFlag", .scalar fishbowl_boolean)])

def Part : FBClass :=
  .mk "Part" (some "PartID") (some
    [("PartID", .scalar pyInt), ("PartClassID", .scalar pyInt),
     ("TypeID", .scalar pyInt), ("UOM", .classP UOM), ("UOMID", .scalar pyInt),
     ("WeightUOM", .classP UOM), ("SizeUOM", .classP UOM), ("Num", .pnone),
     ("Description", .pnone), ("Manufacturer", .pnone), ("Details", .pnone),
     ("TagLabel", .pnone), ("StandardCost", .scalar pyDecimal),
     ("HasBOM", .scalar fishbowl_boolean),
     ("Configurable", .scalar fishbowl_boolean),
     ("ActiveFlag", .scalar fishbowl_boolean),
     ("SerializedFlag", .scalar fishbowl_boolean),
     ("TrackingFlag", .scalar fishbowl_boolean),
     ("UsedFlag", .scalar fishbowl_boolean), ("Weight", .scalar pyDecimal),
     ("WeightUOMID", .scalar pyInt), ("Width", .scalar pyDecimal),
     ("Height", .scalar pyDecimal), ("Len", .scalar pyDecimal),
     ("Revision", .pnone), ("SizeUOMID", .scalar pyInt),
     ("CustomFields", .polyList [CustomField]), ("VendorPartNums", .pnone),
     ("DateCreated", .scalar fishbowl_datetime),
     ("DateLastModified", .scalar fishbowl_datetime)])

def Product : FBClass :=
  .mk "Product" none (some
    [("ID", .scalar pyInt), ("PartID", .scalar pyInt), ("Part", .classP Part),
     ("Num", .pnone), ("Description", .pnone), ("Price", .scalar pyDecimal),
     ("UOM", .classP UOM), ("WeightUOM", .classP UOM), ("SizeUOM", .classP UOM),
     ("DefaultSOItemType", .pnone), ("DisplayType", .pnone),
     ("Weight", .scalar pyDecimal), ("WeightUOMID", .scalar pyInt),
     ("Width", .scalar pyDecimal), ("Height", .scalar pyDecimal),
     ("Len", .scalar pyDecimal), ("SizeUOMID", .scalar pyInt),
     ("SellableInOtherUOMFlag", .scalar fishbowl_boolean),
     ("ActiveFlag", .scalar fishbowl_boolean),
     ("TaxableFlag", .scalar fishbowl_boolean),
     ("UsePriceFlag", .scalar fishbowl_boolean),
     ("KitFlag", .scalar fishbowl_boolean),
     ("ShowSOComboFlag", .scalar fishbowl_boolean), ("Image", .pnone),
     ("DateCreated", .scalar fishbowl_datetime),
     ("DateLastModified", .scalar fishbowl_datetime)])

def Serial : FBClass :=
  .mk "Serial" none (some
    [("ID", .scalar pyInt), ("SerialID", .scalar pyInt), ("SerialNum", .pnone),
     ("PartNum", .pnone), ("DateCreated", .scalar fishbowl_datetime),
     ("DateLastModified", .scalar fishbowl_datetime)])

def SalesOrderItem : FBClass :=
  .mk "SalesOrderItem" (some "ID") (some
    [("ID", .scalar pyInt), ("ProductNumber", .pnone), ("SOID", .scalar pyInt),
     ("Description", .pnone), ("CustomerPartNum", .pnone),
     ("Taxable", .scalar fishbowl_boolean), ("Quantity", .scalar pyInt),
     ("ProductPrice", .scalar pyInt), ("TotalPrice", .scalar pyInt),
     ("UOMCode", .pnone), ("ItemType", .scalar pyInt), ("Status", .scalar pyInt),
     ("QuickBooksClassName", .pnone), ("NewItemFlag", .scalar fishbowl_boolean),
     ("LineNumber", .scalar pyInt), ("KitItemFlag", .scalar fishbowl_boolean),
     ("ShowItemFlag", .scalar fishbowl_boolean),
     ("AdjustmentAmount", .scalar pyDecimal), ("AdjustPercentage", .scalar pyInt),
     ("DateLastFulfillment", .scalar fishbowl_datetime),
     ("DateLastModified", .scalar fishbowl_datetime),
     ("DateScheduledFulfillment", .scalar fishbowl_datetime),
     ("ExchangeSOLineItem", .scalar pyInt), ("ItemAdjustID", .scalar pyInt),
     ("QtyFulfilled", .scalar pyInt), ("QtyPicked", .scalar pyInt),
     ("RevisionLevel", .scalar pyInt), ("TotalCost", .scalar pyDecimal),
     ("TaxableFlag", .scalar fishbowl_boolean)])

def Memo : FBClass :=
  .mk "Memo" none (some
    [("ID", .scalar pyInt), ("Memo", .pnone), ("UserName", .pnone),
     ("DateCreated", .scalar fishbowl_datetime)])

def User : FBClass :=
  .mk "User" (some "ID") (some
    [("ID", .scalar pyInt), ("Email", .pnone), ("FirstName", .pnone),
     ("LastName", .pnone), ("Phone", .pnone), ("Username", .pnone)])

def SalesOrder : FBClass :=
  .mk "SalesOrder" (some "ID") (some
    [("ID", .scalar pyInt), ("Note", .pnone), ("TotalPrice", .scalar pyDecimal),
     ("TotalTax", .scalar pyDecimal), ("PaymentTotal", .scalar pyDecimal),
     ("ItemTotal", .scalar pyDecimal), ("Salesman", .pnone), ("Number", .pnone),
     ("Status", .scalar pyInt), ("Carrier", .pnone),
     ("FirstShipDate", .scalar fishbowl_datetime),
     ("CreatedDate", .scalar fishbowl_datetime),
     ("IssuedDate", .scalar fishbowl_datetime),
     ("TaxRatePercentage", .scalar pyDecimal), ("TaxRateName", .pnone),
     ("ShippingCost", .scalar pyDecimal), ("ShippingTerms", .pnone),
     ("PaymentTerms", .pnone), ("CustomerContact", .pnone),
     ("CustomerName", .pnone), ("CustomerID", .scalar pyInt), ("FOB", .pnone),
     ("QuickBooksClassName", .pnone), ("LocationGroup", .pnone),
     ("PriorityId", .scalar pyInt), ("CurrencyRate", .scalar pyDecimal),
     ("CurrencyName", .pnone),
     ("PriceIsInHomeCurrency", .scalar fishbowl_boolean),
     ("BillTo", .nested
       [("Name", .pnone), ("AddressField", .pnone), ("City", .pnone),
        ("Zip", .pnone), ("Country", .pnone), ("State", .pnone)]),
     ("Ship", .nested
       [("Name", .pnone), ("AddressField", .pnone), ("City", .pnone),
        ("Zip", .pnone), ("Country", .pnone), ("State", .pnone)]),
     ("IssueFlag", .scalar fishbowl_boolean), ("VendorPO", .pnone),
     ("CustomerPO", .pnone), ("UPSServiceID", .scalar pyInt),
     ("TotalIncludesTax", .scalar fishbowl_boolean), ("TypeID", .scalar pyInt),
     ("URL", .pnone), ("Cost", .scalar pyDecimal),
     ("DateCompleted", .scalar fishbowl_datetime),
     ("DateLastModified", .scalar fishbowl_datetime),
     ("DateRevision", .scalar fishbowl_datetime), ("RegisterID", .scalar pyInt),
     ("ResidentialFlag", .scalar fishbowl_boolean), ("SalesmanInitials", .pnone),
     ("CustomFields", .polyList [CustomField]), ("Memos", .polyList [Memo]),
     ("Items", .polyList [SalesOrderItem])])

def TaxRate : FBClass :=
  .mk "TaxRate" none (some
    [("ID", .scalar pyInt), ("Name", .pnone), ("Description", .pnone),
     ("Rate", .scalar pyDecimal), ("TypeID", .scalar pyInt),
     ("VendorID", .scalar pyInt), ("DefaultFlag", .scalar fishbowl_boolean),
     ("ActiveFlag", .scalar fishbowl_boolean)])

def PriceRule : FBClass :=
  .mk "PriceRule" none (some
    [("id", .scalar pyInt), ("isactive", .scalar fishbowl_boolean),
     ("num", .pnone), ("patypeid", .scalar pyInt),
     ("papercent", .scalar pyDecimal), ("pabaseamounttypeid", .scalar pyInt),
     ("paamount", .scalar pyDecimal),
     ("datelastmodified", .scalar fishbowl_datetime)])

/-- The FishbowlObject base class: a member of the module with no fields
attribute of its own (constructing it raises AttributeError in
parse_fields). -/
def FishbowlObject : FBClass := .mk "FishbowlObject" none none

/-- The classes defined in the objects module, as inspect.getmembers
enumerates them (sorted by name). -/
def fishbowl_module_classes : List FBClass :=
  [Address, Country, CustomField, CustomList, CustomListItem, Customer,
   FishbowlObject, LocationGroup, Memo, Part, PriceRule, Product, SalesOrder,
   SalesOrderItem, Serial, State, TaxRate, UOM, User]

/-- all_fishbowl_objects (objects.py lines 35-41): the name-to-class map of
every class defined in the module. -/
def all_fishbowl_objects : List (String × FBClass) :=
  fishbowl_module_classes.map (fun c => (c.name, c))

/-! Size lemmas used for the termination of the mutually recursive mapper. -/

theorem sizeOf_lookupKey {data : List (String × Val)} {k : String} {v : Val}
    (h : lookupKey data k = some v) : sizeOf v < sizeOf data := by
  induction data with
  | nil => simp [lookupKey] at h
  | cons p rest ih =>
    obtain ⟨k1, v1⟩ := p
    by_cases hk : k1 = k
    · rw [lookupKey, if_pos hk] at h
      cases h
      simp
      omega
    · rw [lookupKey, if_neg hk] at h
      have := ih h
      simp
      omega

theorem sizeOf_resolveValue {data : List (String × Val)} {fname : String}
    {v : Val} (h : resolveValue data fname = some v) : sizeOf v < sizeOf data := by
  unfold resolveValue at h
  cases hm : data_map_get data (pyLower fname) with
  | none => rw [hm] at h; cases h
  | some k => rw [hm] at h; exact sizeOf_lookupKey h

theorem get_xml_data_model_nil {v : Val} {d : List (String × Val)}
    (h : get_xml_data_model v = some d) : d = [] := by
  cases v <;> simp_all [get_xml_data_model]

theorem val_sizeOf_pos (v : Val) : 0 < sizeOf v := by
  cases v <;> simp_arith

/-! FishbowlObject.parse_fields (objects.py lines 89-146) and the object
construction it performs for child classes, as one mutual recursion over the
source data.  An `Option` result models exception propagation: `none` is an
uncaught exception escaping parse_fields. -/

mutual

/-- parse_fields with an explicit id_field and field list: None data yields
the empty dict, dict data is resolved field by field, and any other data
goes through get_xml_data first.  The id_field belongs to the object whose
method runs and therefore also governs recursive nested-schema calls. -/
def parse_fields (idf : Option String) (flds : List (String × Parser)) :
    Val → Option (List (String × Val))
  | .vnone => some []
  | .vdict d => parse_fields_data idf flds d
  | v =>
    match h : get_xml_data_model v with
    | some d => parse_fields_data idf flds d
    | none => none

termination_by v => (8 * sizeOf v + 2, 0)
decreasing_by
  all_goals simp_wf
  all_goals first
    | (apply Prod.Lex.right; omega)
    | (apply Prod.Lex.left; first
        | omega
        | (have hsz := sizeOf_resolveValue hres; omega)
        | (have hd := get_xml_data_model_nil h
           subst hd
           have hv := val_sizeOf_pos v
           have h1 : sizeOf ([] : List (String × Val)) = 1 := rfl
           omega))

/-- The dict body of parse_fields: append the synthesized ("ID", int)
descriptor when an id_field is declared and "ID" is not among the fields
(objects.py lines 101-102), resolve the fields in order, then apply the
identifier rename step. -/
def parse_fields_data (idf : Option String) (flds : List (String × Parser))
    (data : List (String × Val)) : Option (List (String × Val)) :=
  match parse_items idf data
      (if idfSet idf && !(hasKey flds "ID") then
        flds ++ [("ID", Parser.scalar pyInt)]
      else flds) with
  | none => none
  | some out => some (rename_id idf out)

termination_by (8 * sizeOf data + 1, 0)
decreasing_by
  all_goals simp_wf
  all_goals first
    | (apply Prod.Lex.right; omega)
    | (apply Prod.Lex.left; first
        | omega
        | (have hsz := sizeOf_resolveValue hres; omega)
        | (have hd := get_xml_data_model_nil h
           subst hd
           have hv := val_sizeOf_pos v
           have h1 : sizeOf ([] : List (String × Val)) = 1 := rfl
           omega))

/-- The field loop of parse_fields (objects.py lines 105-141): look each
field up case-insensitively, skip absent or None values, dispatch on the
parser, and store the produced value under the declared field name. -/
def parse_items (idf : Option String) (data : List (String × Val)) :
    List (String × Parser) → Option (List (String × Val))
  | [] => some []
  | (fname, parser) :: rest =>
    match hres : resolveValue data fname with
    | none => parse_items idf data rest
    | some Val.vnone => parse_items idf data rest
    | some value =>
      match step_field idf parser value with
      | none => none
      | some none => parse_items idf data rest
      | some (some v) =>
        match parse_items idf data rest with
        | none => none
        | some out => some ((fname, v) :: out)

termination_by items => (8 * sizeOf data, items.length)
decreasing_by
  all_goals simp_wf
  all_goals first
    | (apply Prod.Lex.right; omega)
    | (apply Prod.Lex.left; first
        | omega
        | (have hsz := sizeOf_resolveValue hres; omega)
        | (have hd := get_xml_data_model_nil h
           subst hd
           have hv := val_sizeOf_pos v
           have h1 : sizeOf ([] : List (String × Val)) = 1 := rfl
           omega))

/-- The five-way parser dispatch of the field loop.  `none` models an
uncaught exception, `some none` models `continue`, `some (some v)` stores
v.  A nested dict schema skips falsy values, takes the head of a list value
and recurses; a list-of-classes parser resolves each (tag, child) pair
through the class dictionary (the full registry when the candidate list is
empty); a class parser constructs the child inside the try of the scalar
branch (so its failures are swallowed); a conversion function is applied
with its failures swallowed; a None parser stores the value verbatim. -/
def step_field (idf : Option String) (parser : Parser) (value : Val) :
    Option (Option Val) :=
  match parser with
  | .nested nflds =>
    if truthy value then
      match value with
      | .vlist (x :: _) =>
        match parse_fields idf nflds x with
        | none => none
        | some m => some (some (.vdict m))
      | v =>
        match parse_fields idf nflds v with
        | none => none
        | some m => some (some (.vdict m))
    else some none
  | .polyList cands =>
    match value with
    | .vlist l =>
      match parse_poly_items
          (if cands.isEmpty then all_fishbowl_objects
           else cands.map (fun c => (c.name, c))) l with
      | none => none
      | some nv => some (some (.vlist nv))
    | .vstr s =>
      if s = "\x7b\x7d" then some (some (.vlist []))
      else none
    | .vdict prs =>
      match parse_poly_pairs
          (if cands.isEmpty then all_fishbowl_objects
           else cands.map (fun c => (c.name, c))) prs with
      | none => none
      | some nv => some (some (.vlist nv))
    | .vobj _ m =>
      match parse_poly_pairs
          (if cands.isEmpty then all_fishbowl_objects
           else cands.map (fun c => (c.name, c))) m with
      | none => none
      | some nv => some (some (.vlist nv))
    | _ => none
  | .classP cls =>
    match init_object cls value with
    | none => some none
    | some v => some (some v)
  | .scalar f =>
    match f value with
    | none => some none
    | some v => some (some v)
  | .pnone => some (some value)

termination_by (8 * sizeOf value + 4, 0)
decreasing_by
  all_goals simp_wf
  all_goals first
    | (apply Prod.Lex.right; omega)
    | (apply Prod.Lex.left; first
        | omega
        | (have hsz := sizeOf_resolveValue hres; omega)
        | (have hd := get_xml_data_model_nil h
           subst hd
           have hv := val_sizeOf_pos v
           have h1 : sizeOf ([] : List (String × Val)) = 1 := rfl
           omega))

/-- Constructing a child FishbowlObject (`child_parser(child)`):
FishbowlObject.__init__ raises on None data (data xor lazy_data is
asserted), raises AttributeError for a class without a fields attribute,
and otherwise resolves self.mapped = self.parse_fields(data). -/
def init_object (cls : FBClass) : Val → Option Val
  | .vnone => none
  | v =>
    match cls.fields with
    | none => none
    | some flds =>
      match parse_fields cls.id_field flds v with
      | none => none
      | some m => some (.vobj cls.name m)

termination_by v => (8 * sizeOf v + 3, 0)
decreasing_by
  all_goals simp_wf
  all_goals first
    | (apply Prod.Lex.right; omega)
    | (apply Prod.Lex.left; first
        | omega
        | (have hsz := sizeOf_resolveValue hres; omega)
        | (have hd := get_xml_data_model_nil h
           subst hd
           have hv := val_sizeOf_pos v
           have h1 : sizeOf ([] : List (String × Val)) = 1 := rfl
           omega))

/-- The item loop of the polymorphic-list branch (objects.py lines
124-131): a non-list value was wrapped in a singleton list; the literal
string placeholder is skipped; every other item has its (tag, child) pairs
resolved; items without an items() method raise. -/
def parse_poly_items (classes : List (String × FBClass)) :
    List Val → Option (List Val)
  | [] => some []
  | it :: rest =>
    match it with
    | .vstr s =>
      if s = "\x7b\x7d" then parse_poly_items classes rest
      else none
    | .vdict prs =>
      match parse_poly_pairs classes prs with
      | none => none
      | some objs =>
        match parse_poly_items classes rest with
        | none => none
        | some objs2 => some (objs ++ objs2)
    | .vobj _ m =>
      match parse_poly_pairs classes m with
      | none => none
      | some objs =>
        match parse_poly_items classes rest with
        | none => none
        | some objs2 => some (objs ++ objs2)
    | _ => none

termination_by items => (8 * sizeOf items, 0)
decreasing_by
  all_goals simp_wf
  all_goals first
    | (apply Prod.Lex.right; omega)
    | (apply Prod.Lex.left; first
        | omega
        | (have hsz := sizeOf_resolveValue hres; omega)
        | (have hd := get_xml_data_model_nil h
           subst hd
           have hv := val_sizeOf_pos v
           have h1 : sizeOf ([] : List (String × Val)) = 1 := rfl
           omega))

/-- The (tag, child) loop of the polymorphic-list branch (objects.py lines
127-131): tags with no matching class are skipped; matched children are
constructed eagerly and appended, and construction failures propagate. -/
def parse_poly_pairs (classes : List (String × FBClass)) :
    List (String × Val) → Option (List Val)
  | [] => some []
  | (tag, child) :: rest =>
    match classes_get classes tag with
    | none => parse_poly_pairs classes rest
    | some cls =>
      match init_object cls child with
      | none => none
      | some obj =>
        match parse_poly_pairs classes rest with
        | none => none
        | some objs => some (obj :: objs)

termination_by pairs => (8 * sizeOf pairs, 0)
decreasing_by
  all_goals simp_wf
  all_goals first
    | (apply Prod.Lex.right; omega)
    | (apply Prod.Lex.left; first
        | omega
        | (have hsz := sizeOf_resolveValue hres; omega)
        | (have hd := get_xml_data_model_nil h
           subst hd
           have hv := val_sizeOf_pos v
           have h1 : sizeOf ([] : List (String × Val)) = 1 := rfl
           omega))

end

/-! Unfolding lemmas for the mutual recursion, proved once and used both in
the general theorems and to evaluate concrete instances. -/

theorem parse_fields_vnone (idf : Option String) (flds : List (String × Parser)) :
    parse_fields idf flds Val.vnone = some [] := by
  rw [parse_fields.eq_def]

theorem parse_fields_vdict (idf : Option String) (flds : List (String × Parser))
    (d : List (String × Val)) :
    parse_fields idf flds (Val.vdict d) = parse_fields_data idf flds d := by
  rw [parse_fields.eq_def]

theorem parse_fields_vstr (idf : Option String) (flds : List (String × Parser))
    (s : String) (h : ¬ s = "") :
    parse_fields idf flds (Val.vstr s) = none := by
  rw [parse_fields.eq_def]
  have hb : (s == "") = false := by simp [h]
  dsimp only [get_xml_data_model]
  split <;> simp_all

theorem parse_fields_vint (idf : Option String) (flds : List (String × Parser))
    (n : Int) : parse_fields idf flds (Val.vint n) = none := by
  rw [parse_fields.eq_def]
  simp [get_xml_data_model]

theorem parse_items_nil (idf : Option String) (data : List (String × Val)) :
    parse_items idf data [] = some [] := by
  rw [parse_items.eq_def]

theorem parse_items_absent (idf : Option String) (data : List (String × Val))
    (fname : String) (parser : Parser) (rest : List (String × Parser))
    (h : resolveValue data fname = none) :
    parse_items idf data ((fname, parser) :: rest) = parse_items idf data rest := by
  rw [parse_items.eq_def]
  dsimp only
  split <;> simp_all

theorem parse_items_skip_none (idf : Option String) (data : List (String × Val))
    (fname : String) (parser : Parser) (rest : List (String × Parser))
    (h : resolveValue data fname = some Val.vnone) :
    parse_items idf data ((fname, parser) :: rest) = parse_items idf data rest := by
  rw [parse_items.eq_def]
  dsimp only
  split <;> simp_all

theorem parse_items_cons_val (idf : Option String) (data : List (String × Val))
    (fname : String) (parser : Parser) (rest : List (String × Parser))
    (value : Val) (h : resolveValue data fname = some value)
    (hv : value ≠ Val.vnone) :
    parse_items idf data ((fname, parser) :: rest) =
      match step_field idf parser value with
      | none => none
      | some none => parse_items idf data rest
      | some (some v) =>
        match parse_items idf data rest with
        | none => none
        | some out => some ((fname, v) :: out) := by
  rw [parse_items.eq_def]
  dsimp only
  split <;> simp_all

theorem step_field_pnone (idf : Option String) (value : Val) :
    step_field idf Parser.pnone value = some (some value) := by
  rw [step_field.eq_def]

theorem step_field_scalar (idf : Option String) (f : Val → Option Val)
    (value : Val) :
    step_field idf (Parser.scalar f) value =
      match f value with
      | none => some none
      | some v => some (some v) := by
  rw [step_field.eq_def]

theorem step_field_classP (idf : Option String) (cls : FBClass) (value : Val) :
    step_field idf (Parser.classP cls) value =
      match init_object cls value with
      | none => some none
      | some v => some (some v) := by
  rw [step_field.eq_def]

theorem step_field_nested (idf : Option String)
    (nflds : List (String × Parser)) (value : Val) :
    step_field idf (Parser.nested nflds) value =
      if truthy value then
        match value with
        | .vlist (x :: _) =>
          match parse_fields idf nflds x with
          | none => none
          | some m => some (some (.vdict m))
        | v =>
          match parse_fields idf nflds v with
          | none => none
          | some m => some (some (.vdict m))
      else some none := by
  rw [step_field.eq_def]

theorem step_field_poly_list (idf : Option String) (cands : List FBClass)
    (l : List Val) :
    step_field idf (Parser.polyList cands) (Val.vlist l) =
      match parse_poly_items
          (if cands.isEmpty then all_fishbowl_objects
           else cands.map (fun c => (c.name, c))) l with
      | none => none
      | some nv => some (some (.vlist nv)) := by
  rw [step_field.eq_def]

theorem step_field_poly_dict (idf : Option String) (cands : List FBClass)
    (prs : List (String × Val)) :
    step_field idf (Parser.polyList cands) (Val.vdict prs) =
      match parse_poly_pairs
          (if cands.isEmpty then all_fishbowl_objects
           else cands.map (fun c => (c.name, c))) prs with
      | none => none
      | some nv => some (some (.vlist nv)) := by
  rw [step_field.eq_def]

theorem init_object_vnone (cls : FBClass) : init_object cls Val.vnone = none := by
  rw [init_object.eq_def]

theorem init_object_not_none (cls : FBClass) (v : Val) (h : v ≠ Val.vnone) :
    init_object cls v =
      match cls.fields with
      | none => none
      | some flds =>
        match parse_fields cls.id_field flds v with
        | none => none
        | some m => some (.vobj cls.name m) := by
  rw [init_object.eq_def]
  cases v <;> simp_all

theorem parse_poly_items_nil (classes : List (String × FBClass)) :
    parse_poly_items classes [] = some [] := by
  rw [parse_poly_items.eq_def]

theorem parse_poly_items_dict (classes : List (String × FBClass))
    (prs : List (String × Val)) (rest : List Val) :
    parse_poly_items classes (Val.vdict prs :: rest) =
      match parse_poly_pairs classes prs with
      | none => none
      | some objs =>
        match parse_poly_items classes rest with
        | none => none
        | some objs2 => some (objs ++ objs2) := by
  rw [parse_poly_items.eq_def]

theorem parse_poly_pairs_nil (classes : List (String × FBClass)) :
    parse_poly_pairs classes [] = some [] := by
  rw [parse_poly_pairs.eq_def]

theorem parse_poly_pairs_cons (classes : List (String × FBClass)) (tag : String)
    (child : Val) (rest : List (String × Val)) :
    parse_poly_pairs classes ((tag, child) :: rest) =
      match classes_get classes tag with
      | none => parse_poly_pairs classes rest
      | some cls =>
        match init_object cls child with
        | none => none
        | some obj =>
          match parse_poly_pairs classes rest with
          | none => none
          | some objs => some (obj :: objs) := by
  rw [parse_poly_pairs.eq_def]

theorem parse_poly_pairs_cons_none (classes : List (String × FBClass))
    (tag : String) (child : Val) (rest : List (String × Val))
    (h : classes_get classes tag = none) :
    parse_poly_pairs classes ((tag, child) :: rest) =
      parse_poly_pairs classes rest := by
  rw [parse_poly_pairs_cons, h]

theorem parse_poly_pairs_cons_some (classes : List (String × FBClass))
    (tag : String) (child : Val) (rest : List (String × Val)) (cls : FBClass)
    (h : classes_get classes tag = some cls) :
    parse_poly_pairs classes ((tag, child) :: rest) =
      match init_object cls child with
      | none => none
      | some obj =>
        match parse_poly_pairs classes rest with
        | none => none
        | some objs => some (obj :: objs) := by
  rw [parse_poly_pairs_cons, h]

/-! Helper lemmas about the dict primitives. -/

theorem lookupKey_append {β : Type} (l1 l2 : List (String × β)) (key : String) :
    lookupKey (l1 ++ l2) key =
      match lookupKey l1 key with
      | some v => some v
      | none => lookupKey l2 key := by
  induction l1 with
  | nil => simp [lookupKey]
  | cons p rest ih =>
    obtain ⟨k, v⟩ := p
    by_cases hk : k = key <;> simp [lookupKey, hk, ih]

theorem lookupKey_not_mem {β : Type} (l : List (String × β)) (key : String)
    (h : key ∉ l.map Prod.fst) : lookupKey l key = none := by
  induction l with
  | nil => rfl
  | cons p rest ih =>
    obtain ⟨k, v⟩ := p
    have hk : ¬ k = key := fun he => h (by simp [he])
    have h2 : key ∉ rest.map Prod.fst := fun hm => h (by simp [hm])
    simp [lookupKey, hk, ih h2]

theorem lookupKey_middle {β : Type} (l1 l2 : List (String × β)) (k : String)
    (v : β) (hnd : ((l1 ++ (k, v) :: l2).map Prod.fst).Nodup) :
    lookupKey (l1 ++ (k, v) :: l2) k = some v := by
  rw [List.map_append, List.map_cons] at hnd
  have hdisj := (List.nodup_append.mp hnd).2.2
  have hk1 : k ∉ l1.map Prod.fst := fun hx => hdisj hx (List.mem_cons_self _ _)
  rw [lookupKey_append, lookupKey_not_mem l1 k hk1]
  simp [lookupKey]

theorem lookupKey_skip_middle {β : Type} (l1 l2 : List (String × β))
    (k0 : String) (v0 : β) (key : String) (h : k0 ≠ key) :
    lookupKey (l1 ++ (k0, v0) :: l2) key = lookupKey (l1 ++ l2) key := by
  rw [lookupKey_append, lookupKey_append]
  simp [lookupKey, h]

theorem hasKey_skip_middle {β : Type} (l1 l2 : List (String × β))
    (k0 : String) (v0 : β) (key : String) (h : k0 ≠ key) :
    hasKey (l1 ++ (k0, v0) :: l2) key = hasKey (l1 ++ l2) key := by
  simp [hasKey, lookupKey_skip_middle l1 l2 k0 v0 key h]

theorem eraseKey_not_mem {β : Type} (l : List (String × β)) (key : String)
    (h : key ∉ l.map Prod.fst) : eraseKey l key = l := by
  induction l with
  | nil => rfl
  | cons p rest ih =>
    obtain ⟨k, v⟩ := p
    have hk : ¬ k = key := fun he => h (by simp [he])
    have h2 : key ∉ rest.map Prod.fst := fun hm => h (by simp [hm])
    simp [eraseKey, hk, ih h2]

theorem hasKey_eraseKey_self {β : Type} (l : List (String × β)) (key : String)
    (hnd : (l.map Prod.fst).Nodup) : hasKey (eraseKey l key) key = false := by
  induction l with
  | nil => rfl
  | cons p rest ih =>
    obtain ⟨k, v⟩ := p
    rw [List.map_cons] at hnd
    have hnd1 := (List.nodup_cons.mp hnd).1
    have hnd2 := (List.nodup_cons.mp hnd).2
    by_cases hk : k = key
    · subst hk
      simp [eraseKey, hasKey, lookupKey_not_mem rest k hnd1]
    · simp [eraseKey, hk, hasKey, lookupKey, hk]
      have := ih hnd2
      simpa [hasKey] using this

theorem hasKey_eraseKey_other {β : Type} (l : List (String × β))
    (key other : String) (h : hasKey l other = false) :
    hasKey (eraseKey l key) other = false := by
  induction l with
  | nil => rfl
  | cons p rest ih =>
    obtain ⟨k, v⟩ := p
    by_cases hko : k = other
    · rw [hko] at h
      simp [hasKey, lookupKey] at h
    · have hrest : hasKey rest other = false := by
        simpa [hasKey, lookupKey, hko] using h
      by_cases hk : k = key
      · simpa [eraseKey, hk] using hrest
      · have := ih hrest
        simpa [eraseKey, hk, hasKey, lookupKey, hko] using this

/-- A fold over entries none of which match leaves the accumulator. -/
theorem data_map_get_fold_skip (l : List (String × Val)) (lk : String)
    (acc : Option String) (h : ∀ p ∈ l, pyLower p.1 ≠ lk) :
    l.foldl (fun acc p => if pyLower p.1 = lk then some p.1 else acc) acc = acc := by
  induction l generalizing acc with
  | nil => rfl
  | cons p rest ih =>
    rw [List.foldl_cons, if_neg (h p (by simp))]
    exact ih acc (fun q hq => h q (by simp [hq]))

/-- The case-insensitive index resolves to the last source key whose
lowercase form matches: later keys overwrite earlier ones. -/
theorem data_map_get_last (d1 d2 : List (String × Val)) (k : String) (v : Val)
    (lk : String) (hk : pyLower k = lk) (h2 : ∀ p ∈ d2, pyLower p.1 ≠ lk) :
    data_map_get (d1 ++ (k, v) :: d2) lk = some k := by
  unfold data_map_get
  rw [List.foldl_append, List.foldl_cons, if_pos hk]
  exact data_map_get_fold_skip d2 lk (some k) h2

/-- Field resolution hits the value of the last case-insensitive match. -/
theorem resolveValue_last (d1 d2 : List (String × Val)) (k : String) (v : Val)
    (fname : String) (hk : pyLower k = pyLower fname)
    (h2 : ∀ p ∈ d2, pyLower p.1 ≠ pyLower fname)
    (hnd : (((d1 ++ (k, v) :: d2)).map Prod.fst).Nodup) :
    resolveValue (d1 ++ (k, v) :: d2) fname = some v := by
  unfold resolveValue
  rw [data_map_get_last d1 d2 k v (pyLower fname) hk h2]
  exact lookupKey_middle d1 d2 k v hnd

/-- C2 counterexample: with source keys "NAME" then "name" (distinct dict
keys differing only in case), a "Name" field resolves to the value of the
LAST matching key, not the first — the comprehension
`dict((k.lower(), k) for k in data)` lets later keys overwrite earlier
ones. -/
theorem case_lookup_first_wins_cex :
    parse_fields none [("Name", Parser.pnone)]
      (Val.vdict [("NAME", Val.vstr "first"), ("name", Val.vstr "second")]) =
      some [("Name", Val.vstr "second")] ∧
    Val.vstr "second" ≠ Val.vstr "first" := by
  constructor
  · rw [parse_fields_vdict, parse_fields_data.eq_def]
    rw [show (idfSet none && !hasKey [("Name", Parser.pnone)] "ID") = false from rfl]
    rw [if_neg (by simp)]
    rw [parse_items_cons_val _ _ _ _ _ (Val.vstr "second") (by rfl)
      (fun hx => Val.noConfusion hx)]
    rw [step_field_pnone, parse_items_nil]
    rfl
  · simp

/-- C2 (amended).  Case-insensitive field resolution: a declared field name
is matched against the source keys case-insensitively, and when several
source keys differ only in case the LAST matching key wins (later keys
overwrite earlier ones in the lowercased index); in particular the schema
(ID ↦ int, Name ↦ passthrough) applied to source
(id ↦ "42", name ↦ "Widget") resolves to (ID ↦ 42, Name ↦ "Widget"). -/
theorem case_insensitive_last_match_wins :
    (∀ (fname : String) (d1 d2 : List (String × Val)) (k : String) (v : Val),
      pyLower k = pyLower fname →
      (∀ p ∈ d2, pyLower p.1 ≠ pyLower fname) →
      ((d1 ++ (k, v) :: d2).map Prod.fst).Nodup →
      v ≠ Val.vnone →
      parse_fields none [(fname, Parser.pnone)] (Val.vdict (d1 ++ (k, v) :: d2)) =
        some [(fname, v)]) ∧
    parse_fields none [("ID", Parser.scalar pyInt), ("Name", Parser.pnone)]
      (Val.vdict [("id", Val.vstr "42"), ("name", Val.vstr "Widget")]) =
      some [("ID", Val.vint 42), ("Name", Val.vstr "Widget")] := by
  constructor
  · intro fname d1 d2 k v hk h2 hnd hv
    have hres := resolveValue_last d1 d2 k v fname hk h2 hnd
    rw [parse_fields_vdict, parse_fields_data.eq_def]
    rw [show idfSet none = false from rfl, Bool.false_and]
    rw [if_neg (by simp)]
    rw [parse_items_cons_val _ _ _ _ _ v hres hv]
    rw [step_field_pnone, parse_items_nil]
    rfl
  · rw [parse_fields_vdict, parse_fields_data.eq_def]
    rw [show (idfSet none &&
      !hasKey [("ID", Parser.scalar pyInt), ("Name", Parser.pnone)] "ID") = false
      from rfl]
    rw [if_neg (by simp)]
    rw [parse_items_cons_val _ _ _ _ _ (Val.vstr "42") (by rfl)
      (fun hx => Val.noConfusion hx)]
    rw [step_field_scalar]
    rw [parse_items_cons_val _ _ _ _ _ (Val.vstr "Widget") (by rfl)
      (fun hx => Val.noConfusion hx)]
    rw [step_field_pnone, parse_items_nil]
    rfl

/-- C2 witness: the general last-match-wins statement applied to a concrete
source with keys "NUM" (matched, last) after "a" and before "b". -/
theorem case_insensitive_last_match_wins_witness :
    parse_fields none [("Num", Parser.pnone)]
      (Val.vdict ([("a", Val.vstr "1")] ++ [("NUM", Val.vstr "5")] ++ [("b", Val.vstr "2")])) =
      some [("Num", Val.vstr "5")] :=
  case_insensitive_last_match_wins.1 "Num" [("a", Val.vstr "1")]
    [("b", Val.vstr "2")] "NUM" (Val.vstr "5") (by decide)
    (by intro p hp; fin_cases hp <;> decide) (by decide)
    (fun hx => Val.noConfusion hx)

/-- C3 counterexample: with id_field "PartID" and no literal "ID" field,
when the source supplies both a "partid" and an "id" key the resolved
output already contains the PartID key, the rename step's
`self.id_field not in output` guard fails, and the synthesized "ID" entry
is NOT removed — the claim's unconditional "removes the ID entry" is
false. -/
theorem id_rename_unconditional_cex :
    parse_fields (some "PartID") [("PartID", Parser.scalar pyInt)]
      (Val.vdict [("partid", Val.vstr "3"), ("id", Val.vstr "7")]) =
      some [("PartID", Val.vint 3), ("ID", Val.vint 7)] ∧
    hasKey [("PartID", Val.vint 3), ("ID", Val.vint 7)] "ID" = true := by
  constructor
  · rw [parse_fields_vdict, parse_fields_data.eq_def]
    rw [show (idfSet (some "PartID") &&
      !hasKey [("PartID", Parser.scalar pyInt)] "ID") = true from rfl]
    rw [if_pos rfl]
    rw [show ([("PartID", Parser.scalar pyInt)] ++ [("ID", Parser.scalar pyInt)]
        : List (String × Parser)) =
      [("PartID", Parser.scalar pyInt), ("ID", Parser.scalar pyInt)] from rfl]
    rw [parse_items_cons_val _ _ _ _ _ (Val.vstr "3") (by rfl)
      (fun hx => Val.noConfusion hx)]
    rw [step_field_scalar]
    rw [parse_items_cons_val _ _ _ _ _ (Val.vstr "7") (by rfl)
      (fun hx => Val.noConfusion hx)]
    rw [step_field_scalar, parse_items_nil]
    rfl
  · rfl

/-- C3 (amended).  Identifier rename: for a schema declaring a (nonempty)
id_field and no literal "ID" entry, parse_fields appends a synthesized
integer-typed "ID" descriptor and applies the rename step to the resolved
output; the rename step, WHEN the id_field key is not already present in
the output, removes the "ID" entry and reinserts its (truthy) value under
the id_field name; with id_field "PartID" and a source carrying id ↦ "7",
the result maps PartID to 7 and has no "ID" key. -/
theorem id_rename_spec :
    (∀ (f : String) (flds : List (String × Parser)) (data : List (String × Val)),
      f ≠ "" → hasKey flds "ID" = false →
      parse_fields (some f) flds (Val.vdict data) =
        match parse_items (some f) data (flds ++ [("ID", Parser.scalar pyInt)]) with
        | none => none
        | some out => some (rename_id (some f) out)) ∧
    (∀ (f : String) (out : List (String × Val)) (v : Val),
      f ≠ "" → hasKey out f = false → lookupKey out "ID" = some v →
      truthy v = true →
      rename_id (some f) out = eraseKey out "ID" ++ [(f, v)]) ∧
    parse_fields (some "PartID") [("Num", Parser.pnone)]
      (Val.vdict [("id", Val.vstr "7"), ("num", Val.vstr "X")]) =
      some [("Num", Val.vstr "X"), ("PartID", Val.vint 7)] := by
  refine ⟨?_, ?_, ?_⟩
  · intro f flds data hf hID
    rw [parse_fields_vdict, parse_fields_data.eq_def]
    have hc : (idfSet (some f) && !hasKey flds "ID") = true := by
      simp [idfSet, hf, hID]
    rw [hc, if_pos rfl]
  · intro f out v hf hnf hid htv
    simp [rename_id, hf, hnf, hid, htv]
  · rw [parse_fields_vdict, parse_fields_data.eq_def]
    rw [show (idfSet (some "PartID") && !hasKey [("Num", Parser.pnone)] "ID") = true
      from rfl]
    rw [if_pos rfl]
    rw [show ([("Num", Parser.pnone)] ++ [("ID", Parser.scalar pyInt)]
        : List (String × Parser)) =
      [("Num", Parser.pnone), ("ID", Parser.scalar pyInt)] from rfl]
    rw [parse_items_cons_val _ _ _ _ _ (Val.vstr "X") (by rfl)
      (fun hx => Val.noConfusion hx)]
    rw [step_field_pnone]
    rw [parse_items_cons_val _ _ _ _ _ (Val.vstr "7") (by rfl)
      (fun hx => Val.noConfusion hx)]
    rw [step_field_scalar, parse_items_nil]
    rfl

/-- C3 witness: the rename-step characterization applied to a concrete
output where "ID" holds the truthy value 7 and "PartID" is absent. -/
theorem id_rename_spec_witness :
    rename_id (some "PartID") [("Num", Val.vstr "X"), ("ID", Val.vint 7)] =
      eraseKey [("Num", Val.vstr "X"), ("ID", Val.vint 7)] "ID" ++
        [("PartID", Val.vint 7)] :=
  id_rename_spec.2.1 "PartID" [("Num", Val.vstr "X"), ("ID", Val.vint 7)]
    (Val.vint 7) (by decide) rfl rfl rfl

/-- C9.  In the identifier-rename step the popped "ID" value is reinserted
under the id_field name only when it is truthy: when the synthesized "ID"
slot resolved to a falsy value (such as 0), the "ID" entry is removed and
nothing is reinserted, so the result carries neither an "ID" key nor the
id_field key; in particular a source with id ↦ "0" resolves to a mapping
without either key. -/
theorem falsy_id_not_reinserted :
    (∀ (f : String) (flds : List (String × Parser)) (data out : List (String × Val))
        (v : Val),
      f ≠ "" → hasKey flds "ID" = false →
      parse_items (some f) data (flds ++ [("ID", Parser.scalar pyInt)]) = some out →
      (out.map Prod.fst).Nodup →
      hasKey out f = false → lookupKey out "ID" = some v → truthy v = false →
      parse_fields (some f) flds (Val.vdict data) = some (eraseKey out "ID") ∧
      hasKey (eraseKey out "ID") "ID" = false ∧
      hasKey (eraseKey out "ID") f = false) ∧
    parse_fields (some "PartID") [("Num", Parser.pnone)]
      (Val.vdict [("id", Val.vstr "0"), ("num", Val.vstr "N")]) =
      some [("Num", Val.vstr "N")] := by
  constructor
  · intro f flds data out v hf hID hitems hnd hnf hid htv
    refine ⟨?_, hasKey_eraseKey_self out "ID" hnd, hasKey_eraseKey_other out "ID" f hnf⟩
    rw [parse_fields_vdict, parse_fields_data.eq_def]
    have hc : (idfSet (some f) && !hasKey flds "ID") = true := by
      simp [idfSet, hf, hID]
    rw [hc, if_pos rfl, hitems]
    simp [rename_id, hf, hnf, hid, htv]
  · rw [parse_fields_vdict, parse_fields_data.eq_def]
    rw [show (idfSet (some "PartID") && !hasKey [("Num", Parser.pnone)] "ID") = true
      from rfl]
    rw [if_pos rfl]
    rw [show ([("Num", Parser.pnone)] ++ [("ID", Parser.scalar pyInt)]
        : List (String × Parser)) =
      [("Num", Parser.pnone), ("ID", Parser.scalar pyInt)] from rfl]
    rw [parse_items_cons_val _ _ _ _ _ (Val.vstr "N") (by rfl)
      (fun hx => Val.noConfusion hx)]
    rw [step_field_pnone]
    rw [parse_items_cons_val _ _ _ _ _ (Val.vstr "0") (by rfl)
      (fun hx => Val.noConfusion hx)]
    rw [step_field_scalar, parse_items_nil]
    rfl

/-- Constructing a child object of a class with a known fields declaration
on non-None data. -/
theorem init_object_fields (cls : FBClass) (flds : List (String × Parser))
    (hf : cls.fields = some flds) (v : Val) (hv : v ≠ Val.vnone) :
    init_object cls v =
      match parse_fields cls.id_field flds v with
      | none => none
      | some m => some (.vobj cls.name m) := by
  rw [init_object_not_none cls v hv, hf]

/-- When every matched (tag, child) pair constructs successfully, the pair
loop of the polymorphic-list branch returns, in order, one child object per
pair whose tag names a known class, and silently skips the rest. -/
theorem parse_poly_pairs_spec (classes : List (String × FBClass)) :
    ∀ (pairs : List (String × Val)),
      (∀ p ∈ pairs, ∀ cls, classes_get classes p.1 = some cls →
        (init_object cls p.2).isSome = true) →
      parse_poly_pairs classes pairs =
        some (pairs.filterMap (fun p =>
          (classes_get classes p.1).bind (fun cls => init_object cls p.2))) := by
  intro pairs
  induction pairs with
  | nil => intro _; rw [parse_poly_pairs_nil]; rfl
  | cons p rest ih =>
    intro hsucc
    obtain ⟨tag, child⟩ := p
    cases hc : classes_get classes tag with
    | none =>
      rw [parse_poly_pairs_cons_none _ _ _ _ hc]
      rw [ih (fun q hq => hsucc q (by simp [hq]))]
      simp [List.filterMap_cons, hc]
    | some cls =>
      have hobj := hsucc (tag, child) (by simp) cls hc
      cases hio : init_object cls child with
      | none => rw [hio] at hobj; simp at hobj
      | some obj =>
        rw [parse_poly_pairs_cons_some _ _ _ _ _ hc, hio,
          ih (fun q hq => hsucc q (by simp [hq]))]
        simp [List.filterMap_cons, hc, hio]

/-- A field whose conversion function raises on its resolved value
contributes nothing: the field loop behaves as if the field were not
declared at all. -/
theorem parse_items_drop_failing (idf : Option String)
    (data : List (String × Val)) (fname : String) (g : Val → Option Val)
    (value : Val) (hres : resolveValue data fname = some value)
    (hvn : value ≠ Val.vnone) (hfail : g value = none) :
    ∀ (as bs : List (String × Parser)),
      parse_items idf data (as ++ (fname, Parser.scalar g) :: bs) =
        parse_items idf data (as ++ bs) := by
  intro as
  induction as with
  | nil =>
    intro bs
    rw [List.nil_append, List.nil_append]
    rw [parse_items_cons_val _ _ _ _ _ value hres hvn, step_field_scalar, hfail]
  | cons hd rest ih =>
    intro bs
    obtain ⟨fn2, p2⟩ := hd
    rw [List.cons_append, List.cons_append]
    cases hv2 : resolveValue data fn2 with
    | none =>
      rw [parse_items_absent _ _ _ _ _ hv2, parse_items_absent _ _ _ _ _ hv2]
      exact ih bs
    | some w =>
      by_cases hwn : w = Val.vnone
      · subst hwn
        rw [parse_items_skip_none _ _ _ _ _ hv2, parse_items_skip_none _ _ _ _ _ hv2]
        exact ih bs
      · rw [parse_items_cons_val _ _ _ _ _ w hv2 hwn,
          parse_items_cons_val _ _ _ _ _ w hv2 hwn]
        rw [ih bs]

/-- C5.  Per-field lossy conversion: when a scalar parser raises on its
field's (present, non-None) source value, that field is simply omitted —
no exception propagates and the whole resolution equals the resolution of
the schema without that field, so every sibling field resolves exactly as
it would have.  (The field may not be named "ID", since removing an "ID"
field changes the synthesized-identifier bookkeeping itself.) -/
theorem scalar_failure_lossy (idf : Option String)
    (pre post : List (String × Parser)) (fname : String)
    (g : Val → Option Val) (data : List (String × Val)) (value : Val)
    (hres : resolveValue data fname = some value) (hvn : value ≠ Val.vnone)
    (hfail : g value = none) (hname : fname ≠ "ID") :
    parse_fields idf (pre ++ (fname, Parser.scalar g) :: post) (Val.vdict data) =
      parse_fields idf (pre ++ post) (Val.vdict data) := by
  rw [parse_fields_vdict, parse_fields_vdict, parse_fields_data.eq_def,
    parse_fields_data.eq_def]
  rw [hasKey_skip_middle pre post fname (Parser.scalar g) "ID" hname]
  by_cases hc : (idfSet idf && !hasKey (pre ++ post) "ID") = true
  · rw [if_pos hc, if_pos hc]
    rw [List.append_assoc, List.cons_append, List.append_assoc]
    rw [parse_items_drop_failing idf data fname g value hres hvn hfail pre
      (post ++ [("ID", Parser.scalar pyInt)])]
  · rw [if_neg hc, if_neg hc]
    rw [parse_items_drop_failing idf data fname g value hres hvn hfail pre post]

/-- C5 witness: dropping a field whose int conversion fails on "x" leaves
the sibling fields A and B resolving exactly as without it. -/
theorem scalar_failure_lossy_witness :
    parse_fields none
      ([("A", Parser.pnone)] ++ ("Bad", Parser.scalar pyInt) :: [("B", Parser.pnone)])
      (Val.vdict [("a", Val.vstr "1"), ("bad", Val.vstr "x"), ("b", Val.vstr "2")]) =
    parse_fields none ([("A", Parser.pnone)] ++ [("B", Parser.pnone)])
      (Val.vdict [("a", Val.vstr "1"), ("bad", Val.vstr "x"), ("b", Val.vstr "2")]) :=
  scalar_failure_lossy none [("A", Parser.pnone)] [("B", Parser.pnone)] "Bad"
    pyInt [("a", Val.vstr "1"), ("bad", Val.vstr "x"), ("b", Val.vstr "2")]
    (Val.vstr "x") (by rfl) (fun hx => Val.noConfusion hx) (by rfl) (by decide)

/-- C9 witness: the general statement applied to a one-field source whose
"ID" slot parses to the falsy 0. -/
theorem falsy_id_not_reinserted_witness :
    parse_fields (some "F") [] (Val.vdict [("id", Val.vstr "0")]) =
      some (eraseKey [("ID", Val.vint 0)] "ID") :=
  (falsy_id_not_reinserted.1 "F" [] [("id", Val.vstr "0")] [("ID", Val.vint 0)]
    (Val.vint 0) (by decide) rfl
    (by
      rw [List.nil_append]
      rw [parse_items_cons_val _ _ _ _ _ (Val.vstr "0") (by rfl)
        (fun hx => Val.noConfusion hx)]
      rw [step_field_scalar, parse_items_nil]
      rfl)
    (by decide) rfl rfl rfl).1

/-- A sample candidate schema for the polymorphic-list instance. -/
def SchemaA : FBClass := .mk "SchemaA" none (some [("X", Parser.pnone)])

/-- A second sample candidate schema, never matched in the instance. -/
def SchemaB : FBClass := .mk "SchemaB" none (some [("Y", Parser.pnone)])

/-- C4.  Polymorphic list resolution: each (tag, child) pair of a list item
selects the class whose declared name equals the tag and constructs that
child eagerly, and pairs whose tag matches no class are skipped without
error; when the candidate list is empty the full registry of module classes
(all_fishbowl_objects) is consulted instead; in particular candidates
[SchemaA, SchemaB] applied to one item tagged "SchemaA" and one tagged
"Unknown" yield exactly one resolved SchemaA child, the unknown-tag item
being dropped. -/
theorem poly_list_resolution :
    (∀ (classes : List (String × FBClass)) (pairs : List (String × Val)),
      (∀ p ∈ pairs, ∀ cls, classes_get classes p.1 = some cls →
        (init_object cls p.2).isSome = true) →
      parse_poly_pairs classes pairs =
        some (pairs.filterMap (fun p =>
          (classes_get classes p.1).bind (fun cls => init_object cls p.2)))) ∧
    (∀ (idf : Option String) (l : List Val),
      step_field idf (Parser.polyList []) (Val.vlist l) =
        match parse_poly_items all_fishbowl_objects l with
        | none => none
        | some nv => some (some (Val.vlist nv))) ∧
    parse_fields none [("Items", Parser.polyList [SchemaA, SchemaB])]
      (Val.vdict [("items", Val.vlist
        [Val.vdict [("SchemaA", Val.vdict [("X", Val.vstr "1")])],
         Val.vdict [("Unknown", Val.vdict [("Z", Val.vstr "2")])]])]) =
      some [("Items", Val.vlist [Val.vobj "SchemaA" [("X", Val.vstr "1")]])] := by
  refine ⟨parse_poly_pairs_spec, fun idf l => by rw [step_field_poly_list]; rfl, ?_⟩
  rw [parse_fields_vdict, parse_fields_data.eq_def]
  rw [show idfSet none = false from rfl, Bool.false_and]
  rw [if_neg (by simp)]
  rw [parse_items_cons_val _ _ _ _ _ (Val.vlist
    [Val.vdict [("SchemaA", Val.vdict [("X", Val.vstr "1")])],
     Val.vdict [("Unknown", Val.vdict [("Z", Val.vstr "2")])]]) (by rfl)
    (fun hx => Val.noConfusion hx)]
  rw [step_field_poly_list]
  rw [show (if ([SchemaA, SchemaB] : List FBClass).isEmpty then all_fishbowl_objects
    else ([SchemaA, SchemaB] : List FBClass).map (fun c => (c.name, c))) =
    [("SchemaA", SchemaA), ("SchemaB", SchemaB)] from rfl]
  rw [parse_poly_items_dict,
    parse_poly_pairs_cons_some _ _ _ _ SchemaA (by rfl)]
  rw [init_object_fields SchemaA [("X", Parser.pnone)] rfl _
    (fun hx => Val.noConfusion hx)]
  rw [show SchemaA.id_field = none from rfl]
  rw [parse_fields_vdict, parse_fields_data.eq_def]
  rw [show (idfSet none && !hasKey [("X", Parser.pnone)] "ID") = false from rfl]
  rw [if_neg (by simp)]
  rw [parse_items_cons_val _ _ _ _ _ (Val.vstr "1") (by rfl)
    (fun hx => Val.noConfusion hx)]
  rw [step_field_pnone, parse_items_nil]
  rw [parse_poly_pairs_nil]
  rw [parse_poly_items_dict,
    parse_poly_pairs_cons_none _ _ _ _ (by rfl)]
  rw [parse_poly_pairs_nil, parse_poly_items_nil]
  rw [parse_items_nil]
  rfl

/-- C4 witness: the pair-loop characterization applied to a concrete pair
list with one matched tag (whose construction succeeds) and one unknown
tag. -/
theorem poly_list_resolution_witness :
    parse_poly_pairs [("SchemaA", SchemaA)]
      [("SchemaA", Val.vdict []), ("Unknown", Val.vdict [])] =
      some ([("SchemaA", Val.vdict []), ("Unknown", Val.vdict [])].filterMap
        (fun p => (classes_get [("SchemaA", SchemaA)] p.1).bind
          (fun cls => init_object cls p.2))) :=
  poly_list_resolution.1 [("SchemaA", SchemaA)]
    [("SchemaA", Val.vdict []), ("Unknown", Val.vdict [])]
    (by
      intro p hp cls hcls
      fin_cases hp
      · have hc : cls = SchemaA := by
          have : some SchemaA = some cls := by
            rw [show classes_get [("SchemaA", SchemaA)] "SchemaA" = some SchemaA
              from rfl] at hcls
            exact hcls
          cases this
          rfl
        subst hc
        rw [init_object_fields SchemaA [("X", Parser.pnone)] rfl _
          (fun hx => Val.noConfusion hx)]
        rw [show SchemaA.id_field = none from rfl]
        rw [parse_fields_vdict, parse_fields_data.eq_def]
        rw [show (idfSet none && !hasKey [("X", Parser.pnone)] "ID") = false from rfl]
        rw [if_neg (by simp)]
        rw [parse_items_absent _ _ _ _ _ (by rfl), parse_items_nil]
        rfl
      · rw [show classes_get [("SchemaA", SchemaA)] "Unknown" = none from rfl] at hcls
        cases hcls)

/-! The lazy object (objects.py lines 55-87): FishbowlObject.mapped resolves
`self.parse_fields(self._lazy_load())` on first access and stores it in
`_mapped`; the setter is the plain assignment used by the eager path. -/

/-- dict.update of the deep-copied fields with custom_fields (objects.py
lines 95-96): values of existing keys are replaced in place, new keys are
appended in order. -/
def dict_update (base upd : List (String × Parser)) : List (String × Parser) :=
  base.map (fun p =>
    match lookupKey upd p.1 with
    | some v2 => (p.1, v2)
    | none => p) ++
  upd.filter (fun p => !(hasKey base p.1))

/-- The field declaration parse_fields uses when called without explicit
fields (objects.py lines 92-96): self.fields, updated with the custom
fields when those are truthy; a class without a fields attribute raises. -/
def effective_fields (cls : FBClass) (custom : Option (List (String × Parser))) :
    Option (List (String × Parser)) :=
  match cls.fields with
  | none => none
  | some flds =>
    match custom with
    | none => some flds
    | some cf => if cf.isEmpty then some flds else some (dict_update flds cf)

/-- The lazy cache of a FishbowlObject: the `_mapped` attribute (unset while
no resolution has succeeded) and the number of loader invocations so far. -/
structure LazyState where
  cache : Option (List (String × Val))
  calls : Nat

/-- One access to the mapped property (objects.py lines 79-83):
`if not hasattr(self, "_mapped"): self._mapped = self.parse_fields(self._lazy_load())`.
A cached mapping is returned as is; otherwise the loader is invoked and its
result parsed — and when parse_fields raises, the assignment to `_mapped`
never happens, so the cache stays unset.  The loader is given the
invocation count so arbitrary per-call loader behavior is representable. -/
def mapped_get (cls : FBClass) (custom : Option (List (String × Parser)))
    (loader : Nat → Val) (st : LazyState) :
    Option (List (String × Val)) × LazyState :=
  match st.cache with
  | some m => (some m, st)
  | none =>
    match loader st.calls with
    | Val.vnone => (some [], ⟨some [], st.calls + 1⟩)
    | v =>
      match effective_fields cls custom with
      | none => (none, ⟨none, st.calls + 1⟩)
      | some flds =>
        match parse_fields cls.id_field flds v with
        | none => (none, ⟨none, st.calls + 1⟩)
        | some m => (some m, ⟨some m, st.calls + 1⟩)

/-- A sequence of n accesses to the mapped property. -/
def mapped_getN (cls : FBClass) (custom : Option (List (String × Parser)))
    (loader : Nat → Val) : Nat → LazyState → LazyState
  | 0, st => st
  | n + 1, st => mapped_getN cls custom loader n (mapped_get cls custom loader st).2

theorem mapped_get_none (cls : FBClass)
    (custom : Option (List (String × Parser))) (loader : Nat → Val) (c : Nat) :
    mapped_get cls custom loader ⟨none, c⟩ =
      match loader c with
      | Val.vnone => (some [], ⟨some [], c + 1⟩)
      | v =>
        match effective_fields cls custom with
        | none => (none, ⟨none, c + 1⟩)
        | some flds =>
          match parse_fields cls.id_field flds v with
          | none => (none, ⟨none, c + 1⟩)
          | some m => (some m, ⟨some m, c + 1⟩) := rfl

theorem mapped_get_cached (cls : FBClass)
    (custom : Option (List (String × Parser))) (loader : Nat → Val)
    (st : LazyState) (m : List (String × Val)) (h : st.cache = some m) :
    mapped_get cls custom loader st = (some m, st) := by
  unfold mapped_get
  rw [h]

theorem mapped_getN_cached (cls : FBClass)
    (custom : Option (List (String × Parser))) (loader : Nat → Val) :
    ∀ (n : Nat) (st : LazyState) (m : List (String × Val)),
      st.cache = some m → mapped_getN cls custom loader n st = st := by
  intro n
  induction n with
  | zero => intro st m _; rfl
  | succ k ih =>
    intro st m h
    unfold mapped_getN
    rw [mapped_get_cached cls custom loader st m h]
    exact ih st m h

theorem mapped_get_fresh_calls (cls : FBClass)
    (custom : Option (List (String × Parser))) (loader : Nat → Val) (c : Nat) :
    ((mapped_get cls custom loader ⟨none, c⟩).2).calls = c + 1 := by
  rw [mapped_get_none]
  split
  · rfl
  · split
    · rfl
    · split <;> rfl

/-- C8 counterexample: a lazy object whose loader yields data on which
parse_fields raises (an int is not a mapping and not an XML tree) never
sets the cache, so accessing it twice invokes the loader twice — not
exactly once as claimed. -/
theorem lazy_loader_reinvoked_cex :
    (mapped_getN (FBClass.mk "CEx" none (some [])) none (fun _ => Val.vint 5) 2
      ⟨none, 0⟩).calls = 2 ∧ (2 : Nat) ≠ 1 := by
  have h1 : ∀ c : Nat, mapped_get (FBClass.mk "CEx" none (some []))
      none (fun _ => Val.vint 5) ⟨none, c⟩ = (none, ⟨none, c + 1⟩) := by
    intro c
    rw [mapped_get_none]
    rw [show effective_fields (FBClass.mk "CEx" none (some [])) none =
      some [] from rfl]
    rw [show (FBClass.mk "CEx" none (some [])).id_field = none from rfl]
    dsimp only
    rw [parse_fields_vint]
  refine ⟨?_, by decide⟩
  have e2 : mapped_getN (FBClass.mk "CEx" none (some [])) none
      (fun _ => Val.vint 5) 2 ⟨none, 0⟩ =
      mapped_getN (FBClass.mk "CEx" none (some [])) none
        (fun _ => Val.vint 5) 1
        (mapped_get (FBClass.mk "CEx" none (some [])) none
          (fun _ => Val.vint 5) ⟨none, 0⟩).2 := rfl
  have e1 : mapped_getN (FBClass.mk "CEx" none (some [])) none
      (fun _ => Val.vint 5) 1 ⟨none, 1⟩ =
      mapped_getN (FBClass.mk "CEx" none (some [])) none
        (fun _ => Val.vint 5) 0
        (mapped_get (FBClass.mk "CEx" none (some [])) none
          (fun _ => Val.vint 5) ⟨none, 1⟩).2 := rfl
  rw [e2, h1 0]
  rw [show ((none : Option (List (String × Val))),
      (⟨none, 0 + 1⟩ : LazyState)).2 = (⟨none, 1⟩ : LazyState) from rfl]
  rw [e1, h1 1]
  rfl

/-- C8 (amended).  Lazy resolution is memoized on success: when the first
access resolves the mapping without an exception (the cache is set), every
further access returns the cached mapping and the loader is never invoked
again — any sequence of n ≥ 1 accesses invokes the loader exactly once, and
leaves the state exactly as after the first access.  (When resolution
raises, the cache stays unset and a later access invokes the loader
again.) -/
theorem lazy_loader_memoized (cls : FBClass)
    (custom : Option (List (String × Parser))) (loader : Nat → Val) (n : Nat)
    (hn : 1 ≤ n)
    (hok : ((mapped_get cls custom loader ⟨none, 0⟩).2).cache.isSome = true) :
    (mapped_getN cls custom loader n ⟨none, 0⟩).calls = 1 ∧
    mapped_getN cls custom loader n ⟨none, 0⟩ =
      (mapped_get cls custom loader ⟨none, 0⟩).2 := by
  obtain ⟨m, hm⟩ := Option.isSome_iff_exists.mp hok
  obtain ⟨k, rfl⟩ : ∃ k, n = k + 1 := ⟨n - 1, by omega⟩
  have hstep : mapped_getN cls custom loader (k + 1) ⟨none, 0⟩ =
      (mapped_get cls custom loader ⟨none, 0⟩).2 := by
    unfold mapped_getN
    exact mapped_getN_cached cls custom loader k _ m hm
  refine ⟨?_, hstep⟩
  rw [hstep]
  exact mapped_get_fresh_calls cls custom loader 0

/-- C8 witness: a loader returning None resolves to the empty mapping on
first access; three accesses invoke it exactly once. -/
theorem lazy_loader_memoized_witness :
    (mapped_getN (FBClass.mk "W" none (some [])) none (fun _ => Val.vnone) 3
      ⟨none, 0⟩).calls = 1 :=
  (lazy_loader_memoized (FBClass.mk "W" none (some [])) none
    (fun _ => Val.vnone) 3 (by omega) rfl).1

end Fishbowl
